import Mathlib

/-!
# Verification of the xBake texture-baking add-on

Shallow embedding of the xBake repository (`source_code/__init__.py` and
`xbake_CLI/run_xbake.py`) in Lean 4, together with theorems settling the
frozen specification claims.

Conventions of the embedding:
* Blender/Python floats are modelled as rationals (`ℚ`); the claims settled
  here concern exact record/restore behaviour, truncation versus rounding,
  and fixed graph wiring, none of which depends on float rounding.
* Python's mutable state (the global `original_data` dictionary, the scene's
  bake options, object duplication) is passed explicitly.
* `bpy` node graphs are modelled by the link state actually produced by the
  source's sequence of `links.new` calls; a `links.new` call into an input
  socket that already has a link replaces that link (Blender semantics).
-/

namespace XBake

/-! ## Vectors (`mathutils.Vector`, three components) -/

structure Vec3 where
  x : ℚ
  y : ℚ
  z : ℚ
deriving DecidableEq, Repr

def Vec3.sub (a b : Vec3) : Vec3 := ⟨a.x - b.x, a.y - b.y, a.z - b.z⟩

/-- Componentwise product, `mathutils.Vector * mathutils.Vector`. -/
def Vec3.mulC (a b : Vec3) : Vec3 := ⟨a.x * b.x, a.y * b.y, a.z * b.z⟩

/-! ## `normalize_to_unit_cube` / `revert_normalization`
(`source_code/__init__.py` lines 18–52)

A scene object keeps its name, location, scale and local bounding-box
corners (`obj.bound_box`).  `matrix_world @ corner` is modelled as the
object's scale-then-translate transform applied to a corner (the code never
relies on rotation for the claims at hand).  The global `original_data`
dictionary is an association list keyed by object name. -/

structure BakeObj where
  name : String
  location : Vec3
  scale : Vec3
  boundBox : List Vec3
deriving DecidableEq, Repr

abbrev OriginalData := List (String × Vec3 × Vec3)

/-- `original_data[obj.name] = {...}`: a Python dict assignment (insert or
overwrite the key). -/
def dictStore (d : OriginalData) (k : String) (v : Vec3 × Vec3) : OriginalData :=
  (k, v) :: d.filter (fun p => p.1 ≠ k)

/-- `del original_data[obj.name]`. -/
def dictDelete (d : OriginalData) (k : String) : OriginalData :=
  d.filter (fun p => p.1 ≠ k)

/-- `obj.matrix_world @ corner`, with the object transform modelled as
componentwise scale followed by translation. -/
def matrixWorldApply (o : BakeObj) (v : Vec3) : Vec3 :=
  ⟨o.location.x + o.scale.x * v.x,
   o.location.y + o.scale.y * v.y,
   o.location.z + o.scale.z * v.z⟩

def listMin (l : List ℚ) : ℚ := l.foldl min (l.headD 0)
def listMax (l : List ℚ) : ℚ := l.foldl max (l.headD 0)

/-- `normalize_to_unit_cube(obj)`: store the original location and scale in
`original_data`, compute the world-space bounding box, scale each axis by
`1 / max(extent, 1e-6)` and translate the box minimum to the origin. -/
def normalize_to_unit_cube (st : OriginalData) (obj : BakeObj) :
    OriginalData × BakeObj :=
  let st1 := dictStore st obj.name (obj.location, obj.scale)
  let bboxWorld := obj.boundBox.map (matrixWorldApply obj)
  let bboxMin : Vec3 :=
    ⟨listMin (bboxWorld.map Vec3.x), listMin (bboxWorld.map Vec3.y),
     listMin (bboxWorld.map Vec3.z)⟩
  let bboxMax : Vec3 :=
    ⟨listMax (bboxWorld.map Vec3.x), listMax (bboxWorld.map Vec3.y),
     listMax (bboxWorld.map Vec3.z)⟩
  let bboxSize := Vec3.sub bboxMax bboxMin
  let scaleFactors : Vec3 :=
    ⟨1 / max bboxSize.x (1/1000000), 1 / max bboxSize.y (1/1000000),
     1 / max bboxSize.z (1/1000000)⟩
  let obj1 := { obj with
    scale := Vec3.mulC obj.scale scaleFactors,
    location := Vec3.sub obj.location (Vec3.mulC bboxMin scaleFactors) }
  (st1, obj1)

/-- `revert_normalization(obj)`: if `original_data` holds an entry for the
object's name, write the stored location and scale back (not recomputed) and
delete the entry; otherwise leave the object unchanged. -/
def revert_normalization (st : OriginalData) (obj : BakeObj) :
    OriginalData × BakeObj :=
  match st.lookup obj.name with
  | none => (st, obj)
  | some (loc, sc) =>
      (dictDelete st obj.name, { obj with location := loc, scale := sc })

/-! ## `update_bake_margin` (`source_code/__init__.py` lines 97–103) -/

/-- Python `int()` applied to a rational: truncation toward zero. -/
def pyInt (q : ℚ) : ℤ := if 0 ≤ q then ⌊q⌋ else -⌊-q⌋

/-- `update_bake_margin`: `margin_percentage / 100` then
`int(resolution * margin_percentage)` as the pixel margin. -/
def update_bake_margin (resolution : ℕ) (margin_percentage : ℚ) : ℤ :=
  let fraction := margin_percentage / 100
  pyInt ((resolution : ℚ) * fraction)

/-! ## CLI argument parsing (`xbake_CLI/run_xbake.py` lines 16–24)

`argparse` with `type=bool` applies Python's `bool()` constructor to the raw
string supplied on the command line; `bool(s)` for a string is `False`
exactly when the string is empty.  An absent flag takes the declared
default. -/

def pyBoolOfString (s : String) : Bool := !(s == "")

structure CLIFlagInputs where
  usenormal : Option String
  useao : Option String
  usecurvature : Option String
  useposition : Option String
  useworldspacenormal : Option String
  usemayaorientation : Option String
deriving DecidableEq, Repr

structure CLIArgs where
  usenormal : Bool
  useao : Bool
  usecurvature : Bool
  useposition : Bool
  useworldspacenormal : Bool
  usemayaorientation : Bool
deriving DecidableEq, Repr

def parseBoolFlag (supplied : Option String) (dflt : Bool) : Bool :=
  match supplied with
  | some s => pyBoolOfString s
  | none => dflt

/-- The six `type=bool` flags of `parse_arguments`, with their declared
defaults (`True` for the map enables, `False` for `--usemayaorientation`). -/
def parse_arguments (i : CLIFlagInputs) : CLIArgs :=
  { usenormal := parseBoolFlag i.usenormal true,
    useao := parseBoolFlag i.useao true,
    usecurvature := parseBoolFlag i.usecurvature true,
    useposition := parseBoolFlag i.useposition true,
    useworldspacenormal := parseBoolFlag i.useworldspacenormal true,
    usemayaorientation := parseBoolFlag i.usemayaorientation false }

/-! ## Curvature contrast remap (`source_code/__init__.py` lines 1208–1210)

The curvature graph feeds the Pointiness scalar through a
`ShaderNodeMapRange` whose `From Min`/`From Max` sockets are set from the
contrast; the node keeps its Blender defaults otherwise (`To Min` 0,
`To Max` 1, linear interpolation, clamping enabled). -/

def curvatureFromMin (contrast : ℚ) : ℚ := 1/2 - ((1 - contrast)/2 + 1/1000)

def curvatureFromMax (contrast : ℚ) : ℚ := 1/2 + ((1 - contrast)/2 + 1/1000)

/-- Blender Map Range node, LINEAR interpolation, To Min 0, To Max 1,
clamping enabled (all defaults in the source). -/
def mapRangeLinearClamped (fromMin fromMax v : ℚ) : ℚ :=
  min (max ((v - fromMin) / (fromMax - fromMin)) 0) 1

def curvatureRemap (contrast v : ℚ) : ℚ :=
  mapRangeLinearClamped (curvatureFromMin contrast) (curvatureFromMax contrast) v

/-! ## `CreateMapOutput` (`source_code/__init__.py` lines 730–824)

`bpy.path.abspath` resolves the `//` blend-file-relative prefix to the
project directory; since the argument of line 748/749 always carries the
literal `//` prefix, the model inlines that resolution (and the re-abspath
of line 779, a no-op on the already-absolute result).  The user-supplied
custom `bake_path` is taken as already absolute. -/

/-- `os.path.commonprefix` core: longest common leading run of characters. -/
def commonLeading : List Char → List Char → List Char
  | a :: as, b :: bs => if a = b then a :: commonLeading as bs else []
  | _, _ => []

def osCommonLeading (s t : String) : String := ⟨commonLeading s.data t.data⟩

/-- `[a-zA-Z0-9]` of the regex on line 745. -/
def isAlnumAscii (c : Char) : Bool := c.isAlpha || c.isDigit

/-- `re.sub(r'[^a-zA-Z0-9]+$', '', s)`: strip trailing non-alphanumerics. -/
def stripTrailingNonAlnum (s : String) : String :=
  ⟨(s.data.reverse.dropWhile (fun c => !(isAlnumAscii c))).reverse⟩

/-- Python `str.lower()` (ASCII data here). -/
def strLower (s : String) : String := ⟨s.data.map Char.toLower⟩

/-- Python `str.capitalize()`: first character uppercased, rest lowercased. -/
def strCapitalize (s : String) : String :=
  match s.data with
  | [] => ""
  | c :: cs => ⟨c.toUpper :: cs.map Char.toLower⟩

/-- Python `str.split(".")`. -/
def splitOnDotAux : List Char → List Char → List (List Char)
  | [], acc => [acc.reverse]
  | c :: cs, acc =>
      if c = '.' then acc.reverse :: splitOnDotAux cs []
      else splitOnDotAux cs (c :: acc)

def splitOnDot (s : String) : List String :=
  (splitOnDotAux s.data []).map (fun l => ⟨l⟩)

/-- Python `str.replace(".", sep)`. -/
def replaceDotData (sep : String) : List Char → List Char
  | [] => []
  | c :: cs =>
      if c = '.' then sep.data ++ replaceDotData sep cs
      else c :: replaceDotData sep cs

def strReplaceDot (s sep : String) : String := ⟨replaceDotData sep s.data⟩

/-- Python `s[:-n]` for `n > 0`. -/
def strDropRight (s : String) (n : Nat) : String :=
  ⟨s.data.take (s.data.length - n)⟩

def strEndsWithSlash (a : String) : Bool :=
  a.data.reverse.headD ' ' == '/'

/-- `os.path.join` on POSIX for the separators appearing here: append with a
single `/` unless the left part already ends in one (or is empty). -/
def osPathJoin (a b : String) : String :=
  if a == "" then b
  else if strEndsWithSlash a then a ++ b
  else a ++ "/" ++ b

/-- The fourteen bake-type keys of the `map_types` table (lines 782–797). -/
inductive BakeTypeKey
  | COMBINED | NORMAL | AO | SHADOW | POSITION | UV | ROUGHNESS | EMIT
  | ENVIRONMENT | DIFFUSE | GLOSSY | TRANSMISSION | CURVATURE
  | WORLD_SPACE_NORMAL
deriving DecidableEq, Repr

/-- The label paired with each key in `map_types`, with `separator2`
interpolated (lines 782–797). -/
def mapLabel (sep2 : String) : BakeTypeKey → String
  | .COMBINED => "COMBINED"
  | .NORMAL => "NORMAL"
  | .AO => "AMBIENT" ++ sep2 ++ "OCCLUSION"
  | .SHADOW => "SHADOW"
  | .POSITION => "POSITION"
  | .UV => "UV"
  | .ROUGHNESS => "ROUGHNESS"
  | .EMIT => "EMIT"
  | .ENVIRONMENT => "ENVIRONMENT"
  | .DIFFUSE => "DIFFUSE"
  | .GLOSSY => "GLOSSY"
  | .TRANSMISSION => "TRANSMISSION"
  | .CURVATURE => "CURVATURE"
  | .WORLD_SPACE_NORMAL => "WORLD" ++ sep2 ++ "SPACE" ++ sep2 ++ "NORMALS"

/-- The fields of `BakeSettings` that `CreateMapOutput` reads. -/
structure NamingCfg where
  automatic_output_path : Bool
  single_object : Bool
  targetName : String
  sourceName : Option String
  use_custom_name : Bool
  custom_name : String
  naming_separator : String
  mapname_separator : String
  naming_uppercase : Bool
  naming_pascalcase : Bool
  use_custom_path : Bool
  bake_path : String
  use_object_folder : Bool
  use_subfolder : Bool
  subfolder_name : String
deriving DecidableEq, Repr

/-- Name-stem resolution of lines 735–745: the target name, or the common
leading substring of source and target names stripped of trailing
non-alphanumerics when a source object takes part. -/
def resolvedStem (cfg : NamingCfg) : String :=
  let src := if cfg.single_object then none else cfg.sourceName
  match src with
  | some sn => stripTrailingNonAlnum (osCommonLeading sn cfg.targetName)
  | none => cfg.targetName

/-- Pascal-case label formatting of lines 815–818. -/
def pascalFormat (label sep : String) : String :=
  let words := splitOnDot (strLower label)
  let joined := String.join (words.map (fun w => strCapitalize w ++ "."))
  let replaced := strReplaceDot joined sep
  if sep.length > 0 then strDropRight replaced sep.length else replaced

/-- `CreateMapOutput(bakeType)`: resolve the output file path for one map
type (lines 730–824). -/
def CreateMapOutput (projectRoot : String) (cfg : NamingCfg)
    (bakeType : BakeTypeKey) : String :=
  let name0 := resolvedStem cfg
  let output_dir := projectRoot ++ "/Resources/" ++ name0 ++ "/baked_maps/"
  let root_path := projectRoot ++ "/Resources/"
  if cfg.automatic_output_path then
    let sep2 := "_"
    let formatted := strLower (mapLabel sep2 bakeType)
    let full_name := name0 ++ cfg.naming_separator ++ formatted
    osPathJoin output_dir (full_name ++ ".png")
  else
    let name1 := if cfg.use_custom_name then cfg.custom_name else name0
    let sep2 := if cfg.naming_pascalcase then "." else cfg.mapname_separator
    let base := if cfg.use_custom_path then cfg.bake_path else root_path
    let dir :=
      if cfg.use_object_folder then
        let d := osPathJoin base name1
        if cfg.use_subfolder then osPathJoin d cfg.subfolder_name else d
      else
        if cfg.use_subfolder then osPathJoin base cfg.subfolder_name else base
    let label := mapLabel sep2 bakeType
    let formatted :=
      if !cfg.naming_uppercase && !cfg.naming_pascalcase then strLower label
      else if cfg.naming_uppercase then label
      else pascalFormat label cfg.mapname_separator
    let full_name := name1 ++ cfg.naming_separator ++ formatted
    osPathJoin dir (full_name ++ ".png")

/-! ## Derived-channel axis selection
(`source_code/__init__.py` lines 1302–1315 / 1324–1449 for the
WorldSpaceNormal graph and the identical lines 1555–1568 / 1577–1702 for
the Position graph)

Both graphs create a `ShaderNodeSeparateXYZ` node and three subtract Math
nodes, then pick one node output per Right/Forward/Up channel through the
36-way conditional on `(forward_axis, up_axis)`.  Degenerate pairs print
`positionerrortext` and leave the selection of the last matched branch. -/

inductive Chan
  | X | Y | Z
deriving DecidableEq, Repr

inductive AxisDir
  | POS_X | NEG_X | POS_Y | NEG_Y | POS_Z | NEG_Z
deriving DecidableEq, Repr, Fintype

/-- The physical coordinate named by a signed axis identifier. -/
def AxisDir.phys : AxisDir → Chan
  | .POS_X | .NEG_X => .X
  | .POS_Y | .NEG_Y => .Y
  | .POS_Z | .NEG_Z => .Z

/-- The node outputs an axis branch can select from: the three
`Separate XYZ` scalar outputs and the three subtract Math node outputs. -/
inductive NodeOut
  | sepX | sepY | sepZ | mathX | mathY | mathZ
deriving DecidableEq, Repr

/-- Link state of the second input socket of the three Math nodes. -/
structure MathLinks where
  mathXIn : Option Chan
  mathYIn : Option Chan
  mathZIn : Option Chan
deriving DecidableEq, Repr

/-- Line 1305/1558: `links.new(separate_xyz_node.outputs["X"], math_node_x.inputs[1])`. -/
def linksStepX : MathLinks := { mathXIn := some .X, mathYIn := none, mathZIn := none }

/-- Line 1310/1563: `links.new(separate_xyz_node.outputs["Y"], math_node_y.inputs[1])`. -/
def linksStepY : MathLinks := { linksStepX with mathYIn := some .Y }

/-- Line 1315/1568: `links.new(separate_xyz_node.outputs["Z"], math_node_y.inputs[1])`.
The destination socket is `math_node_y.inputs[1]` again, so the new link
replaces the Y link and `math_node_z.inputs[1]` is never linked. -/
def builtMathLinks : MathLinks := { linksStepY with mathYIn := some .Z }

/-- A subtract Math node output: `inputs[0] - inputs[1]` with `inputs[0]`
set to 1 by the code and `inputs[1]` the linked channel, or the Blender
default socket value 0.5 when no link was made. -/
def mathNodeOut (link : Option Chan) (v : Chan → ℚ) : ℚ :=
  1 - (match link with | some c => v c | none => 1/2)

/-- Value carried by a selected node output, for a surface sample whose
separated vector components are `v`. -/
def nodeOutVal (g : MathLinks) (v : Chan → ℚ) : NodeOut → ℚ
  | .sepX => v .X
  | .sepY => v .Y
  | .sepZ => v .Z
  | .mathX => mathNodeOut g.mathXIn v
  | .mathY => mathNodeOut g.mathYIn v
  | .mathZ => mathNodeOut g.mathZIn v

/-- The Right/Forward/Up node-output selection, with the degenerate-axes
warning flag (`print(positionerrortext)`). -/
structure AxisSel where
  right : NodeOut
  forward : NodeOut
  up : NodeOut
  warned : Bool
deriving DecidableEq, Repr

/-- The 36-way conditional of lines 1324–1449 (WorldSpaceNormal) and lines
1577–1702 (Position); the two blocks are branch-for-branch identical.
Defaults (lines 1318–1320 / 1571–1573): right `sepX`, forward `sepY`,
up `sepZ`; degenerate branches assign only forward and up and print the
warning, leaving right at its default. -/
def axisSelect : AxisDir → AxisDir → AxisSel
  | .POS_Y, .POS_Y => ⟨.sepX, .sepY, .sepY, true⟩
  | .POS_Y, .NEG_Y => ⟨.sepX, .sepY, .mathY, true⟩
  | .POS_Y, .POS_X => ⟨.mathZ, .sepY, .sepX, false⟩
  | .POS_Y, .NEG_X => ⟨.sepZ, .sepY, .mathX, false⟩
  | .POS_Y, .POS_Z => ⟨.sepX, .sepY, .sepZ, false⟩
  | .POS_Y, .NEG_Z => ⟨.mathX, .sepY, .mathZ, false⟩
  | .NEG_Y, .POS_Y => ⟨.sepX, .mathY, .sepY, true⟩
  | .NEG_Y, .NEG_Y => ⟨.sepX, .mathY, .mathY, true⟩
  | .NEG_Y, .POS_X => ⟨.sepZ, .mathY, .sepX, false⟩
  | .NEG_Y, .NEG_X => ⟨.mathZ, .mathY, .mathX, false⟩
  | .NEG_Y, .POS_Z => ⟨.mathX, .mathY, .sepZ, false⟩
  | .NEG_Y, .NEG_Z => ⟨.sepX, .mathY, .mathZ, false⟩
  | .POS_X, .POS_Y => ⟨.mathZ, .sepX, .sepY, false⟩
  | .POS_X, .NEG_Y => ⟨.sepZ, .sepX, .mathY, false⟩
  | .POS_X, .POS_X => ⟨.sepX, .sepX, .sepX, true⟩
  | .POS_X, .NEG_X => ⟨.sepX, .sepX, .mathX, true⟩
  | .POS_X, .POS_Z => ⟨.mathY, .sepX, .sepZ, false⟩
  | .POS_X, .NEG_Z => ⟨.sepY, .sepX, .mathZ, false⟩
  | .NEG_X, .POS_Y => ⟨.sepZ, .mathX, .sepY, false⟩
  | .NEG_X, .NEG_Y => ⟨.mathZ, .mathX, .mathY, false⟩
  | .NEG_X, .POS_X => ⟨.sepX, .mathX, .sepX, true⟩
  | .NEG_X, .NEG_X => ⟨.sepX, .mathX, .mathX, true⟩
  | .NEG_X, .POS_Z => ⟨.sepY, .mathX, .sepZ, false⟩
  | .NEG_X, .NEG_Z => ⟨.mathY, .mathX, .mathZ, false⟩
  | .POS_Z, .POS_Y => ⟨.mathX, .sepZ, .sepY, false⟩
  | .POS_Z, .NEG_Y => ⟨.sepX, .sepZ, .mathY, false⟩
  | .POS_Z, .POS_X => ⟨.sepY, .sepZ, .sepX, false⟩
  | .POS_Z, .NEG_X => ⟨.mathY, .sepZ, .mathX, false⟩
  | .POS_Z, .POS_Z => ⟨.sepX, .sepZ, .sepZ, true⟩
  | .POS_Z, .NEG_Z => ⟨.sepX, .sepZ, .mathZ, true⟩
  | .NEG_Z, .POS_Y => ⟨.sepX, .mathZ, .sepY, false⟩
  | .NEG_Z, .NEG_Y => ⟨.mathX, .mathZ, .mathY, false⟩
  | .NEG_Z, .POS_X => ⟨.mathY, .mathZ, .sepX, false⟩
  | .NEG_Z, .NEG_X => ⟨.sepY, .mathZ, .mathX, false⟩
  | .NEG_Z, .POS_Z => ⟨.sepX, .mathZ, .sepZ, true⟩
  | .NEG_Z, .NEG_Z => ⟨.sepX, .mathZ, .mathZ, true⟩

/-! ## The bake-job runner (`BakeSelectedMapsOperator.execute`,
`source_code/__init__.py` lines 1014–1822)

Event-trace model of the operator's control flow.  The enabled map types
run in the fixed `map_types` order.  Before the loop the operator computes
`islitmap` (lines 1036–1040: false iff some enabled map type is material
independent) and, when `islitmap` is false, duplicates the source and
target objects, hides the originals from the renderer and clears the
duplicates' material slots (lines 1046–1060).  If no active object
resolves after selection it reports an error and returns CANCELLED with
the duplicates still present (lines 1072–1078).  Each lit job first
switches back to the original objects, removing the duplicates and
unhiding the originals if the duplicates are still alive, and sets
`copydestroyed` (lines 1124–1150).  A failing `bpy.ops.object.bake` call
raises and the operator has no exception handler, so the remaining
statements of the job (image save, temporary material/image removal,
material-slot restore, and for Position `revert_normalization`) and all
later jobs are skipped.  After the loop the duplicates are removed if no
lit job ran (lines 1807–1814). -/

inductive MapType
  | NORMAL | AO | CURVATURE | UV | POSITION | WORLD_SPACE_NORMAL
  | COMBINED | SHADOW | ROUGHNESS | EMIT | ENVIRONMENT | DIFFUSE
  | GLOSSY | TRANSMISSION
deriving DecidableEq, Repr

/-- Lines 1039/1125: the six material-independent ("unlit") bake types;
all others are material dependent ("lit"). -/
def isLit : MapType → Bool
  | .NORMAL | .AO | .CURVATURE | .POSITION | .WORLD_SPACE_NORMAL | .UV => false
  | _ => true

/-- The fixed `map_types` iteration order of the operator (lines 1016–1031). -/
def mapOrder : List MapType :=
  [.NORMAL, .AO, .CURVATURE, .UV, .POSITION, .WORLD_SPACE_NORMAL,
   .COMBINED, .SHADOW, .ROUGHNESS, .EMIT, .ENVIRONMENT, .DIFFUSE,
   .GLOSSY, .TRANSMISSION]

/-- Observable events of one operator run. -/
inductive Ev
  | dupCreate
  | dupDestroy
  | enter (mt : MapType) (usingDup : Bool)
  | normalizeOb
  | bakeCall (mt : MapType)
  | revertOb
  | restore (mt : MapType)
  | abortNoActive
  | raised (mt : MapType)
deriving DecidableEq, Repr

inductive Outcome
  | finished | cancelled | excRaised
deriving DecidableEq, Repr

/-- Events of one job body.  `enter` stands for the allocation of the
job's temporary resources, `restore` for the job's teardown tail (image
save and removal, temporary material removal, material-slot restore, and
re-selection for UV); the Position job additionally normalizes the object
before the bake and reverts it during teardown.  When the bake call fails
the job ends in `raised` and no teardown events occur. -/
def jobEvents (mt : MapType) (dup : Bool) (fails : Bool) : List Ev × Bool :=
  match mt with
  | .UV => ([.enter mt dup, .restore mt], true)
  | .POSITION =>
      if fails then ([.normalizeOb, .enter mt dup, .bakeCall mt, .raised mt], false)
      else ([.normalizeOb, .enter mt dup, .bakeCall mt, .revertOb, .restore mt], true)
  | _ =>
      if fails then ([.enter mt dup, .bakeCall mt, .raised mt], false)
      else ([.enter mt dup, .bakeCall mt, .restore mt], true)

/-- The per-job loop of lines 1121–1804.  `dup` records whether the
duplicate pair is alive; a lit job destroys it first (lines 1129–1150).
The second component is `none` when a bake call raised, otherwise
`some dup` with the final duplicate state. -/
def runJobs (bf : MapType → Bool) : List MapType → Bool → List Ev × Option Bool
  | [], dup => ([], some dup)
  | mt :: rest, dup =>
      let pre : List Ev := if isLit mt && dup then [.dupDestroy] else []
      let dup1 := if isLit mt then false else dup
      let je := jobEvents mt dup1 (bf mt)
      if je.2 then
        let rec1 := runJobs bf rest dup1
        (pre ++ je.1 ++ rec1.1, rec1.2)
      else (pre ++ je.1, none)

/-- One run of `BakeSelectedMapsOperator.execute` over the enabled map
types, with `activeOk` telling whether an active object resolves after
selection and `bf` telling which bake calls fail. -/
def executeRun (maps : List MapType) (activeOk : Bool) (bf : MapType → Bool) :
    List Ev × Outcome :=
  let islitmap := maps.all isLit
  let pre : List Ev := if islitmap then [] else [.dupCreate]
  let dup := !islitmap
  if !activeOk then (pre ++ [.abortNoActive], .cancelled)
  else
    let r := runJobs bf maps dup
    match r.2 with
    | none => (pre ++ r.1, .excRaised)
    | some _ =>
        let copydestroyed := maps.any isLit
        let post : List Ev := if !islitmap && !copydestroyed then [.dupDestroy] else []
        (pre ++ r.1 ++ post, .finished)

def countEv (p : Ev → Bool) (tr : List Ev) : Nat := tr.countP p

def isEnterOf (mt : MapType) : Ev → Bool
  | .enter m _ => m == mt
  | _ => false

def isRestoreOf (mt : MapType) : Ev → Bool
  | .restore m => m == mt
  | _ => false

def isDupCreate : Ev → Bool
  | .dupCreate => true
  | _ => false

def isDupDestroy : Ev → Bool
  | .dupDestroy => true
  | _ => false

def isNormalizeEv : Ev → Bool
  | .normalizeOb => true
  | _ => false

def isRevertEv : Ev → Bool
  | .revertOb => true
  | _ => false

/-- Once a lit map type occurs in a list, all later entries are lit; this
holds for `mapOrder` and, hence, for every filtered run. -/
def litSuffix : List MapType → Bool
  | [] => true
  | mt :: rest => if isLit mt then rest.all isLit else litSuffix rest

/-! ## Curvature job scene operations (`source_code/__init__.py`
lines 1222–1260): fine-grained model for the bake-clear flag and the
neutral-gray pixel initialization. -/

inductive SceneOp
  | createImage
  | fillPixels (r g b a : ℚ)
  | setUseClear (b : Bool)
  | bakeOp
  | saveImage
  | removeImage
  | removeNode
  | removeMaterial
  | restoreMaterial
deriving DecidableEq, Repr

/-- The scene-state mutations of the curvature job around its bake call,
in program order (image creation 1224, pixel fill 1229, `use_clear = False`
1232, bake 1246, save 1249, `use_clear = True` 1250, cleanup 1251–1260). -/
def curvatureJobOps : List SceneOp :=
  [.createImage, .fillPixels (1/2) (1/2) (1/2) 1, .setUseClear false,
   .bakeOp, .saveImage, .setUseClear true, .removeImage, .removeNode,
   .removeMaterial, .restoreMaterial]

/-- `img.pixels = [0.5, 0.5, 0.5, 1.0] * (resolution ** 2)` (line 1229):
the flat RGBA array, one gray opaque quadruple per pixel. -/
def curvatureInitPixels (res : Nat) : List ℚ :=
  (List.replicate (res ^ 2) [1/2, 1/2, 1/2, 1]).flatten

/-- The value of `use_clear` at the first bake call of an op list, given
the incoming flag state. -/
def useClearWhenBake : List SceneOp → Option Bool → Option Bool
  | [], _ => none
  | .bakeOp :: _, st => st
  | .setUseClear b :: rest, _ => useClearWhenBake rest (some b)
  | _ :: rest, st => useClearWhenBake rest st

/-- The value of `use_clear` after an op list runs. -/
def useClearFinal : List SceneOp → Option Bool → Option Bool
  | [], st => st
  | .setUseClear b :: rest, _ => useClearFinal rest (some b)
  | _ :: rest, st => useClearFinal rest st

end XBake

namespace XBake

/-! ## Theorems for claims C5, C8, C9 -/

/-- C5: normalizing an object to the unit cube and then reverting restores
the object's original location and scale vectors exactly, taken from the
recorded entry of `original_data` (which the revert also deletes). -/
theorem normalize_revert_roundtrip (st : OriginalData) (obj : BakeObj) :
    let p1 := normalize_to_unit_cube st obj
    let p2 := revert_normalization p1.1 p1.2
    p2.2.location = obj.location ∧ p2.2.scale = obj.scale ∧
      p2.1.lookup obj.name = none := by
  intro p1 p2
  have hname : p1.2.name = obj.name := rfl
  have hlook : p1.1.lookup obj.name = some (obj.location, obj.scale) := by
    show (dictStore st obj.name (obj.location, obj.scale)).lookup obj.name
        = some (obj.location, obj.scale)
    simp [dictStore]
  have h2 : p2 = (dictDelete p1.1 obj.name,
      { p1.2 with location := obj.location, scale := obj.scale }) := by
    show revert_normalization p1.1 p1.2 = _
    rw [revert_normalization, hname, hlook]
    rfl
  refine ⟨by rw [h2], by rw [h2], ?_⟩
  rw [h2]
  show ((dictStore st obj.name (obj.location, obj.scale)).filter
      (fun p => p.1 ≠ obj.name)).lookup obj.name = none
  rw [List.lookup_eq_none_iff]
  intro p hp
  have hne := (List.mem_filter.mp hp).2
  simp only [ne_eq, decide_not, Bool.not_eq_true', decide_eq_false_iff_not] at hne
  simp only [bne_iff_ne, ne_eq]
  exact fun hco => hne hco.symm

/-- C8 (counterexample): at resolution 66 and margin percentage 10 the code
computes `int(66 * 0.1) = 6`, while `round(66 * 10 / 100) = 7`. -/
theorem bake_margin_not_round :
    update_bake_margin 66 10 = 6 ∧ round ((66 : ℚ) * 10 / 100) = 7 ∧
      (6 : ℤ) ≠ 7 := by
  refine ⟨?_, ?_, by decide⟩
  · show pyInt ((66 : ℚ) * (10 / 100)) = 6
    rw [pyInt]
    norm_num
  · rw [round_eq]
    rw [show ((66 : ℚ) * 10 / 100 + 1/2) = 71/10 by norm_num]
    rw [show (7 : ℤ) = (7 : ℤ) from rfl, Int.floor_eq_iff]
    constructor
    · norm_num
    · norm_num

/-- C8 (amended): for every resolution in [64, 4096] and margin percentage
in [0, 100], the pixel margin set by `update_bake_margin` equals
`⌊resolution * pct / 100⌋` (truncation, not rounding); it lies within one
of the rounded value and within `[0, resolution]`. -/
theorem bake_margin_is_floor (resolution : ℕ) (pct : ℚ)
    (hr1 : 64 ≤ resolution) (hr2 : resolution ≤ 4096)
    (hp1 : 0 ≤ pct) (hp2 : pct ≤ 100) :
    update_bake_margin resolution pct = ⌊(resolution : ℚ) * pct / 100⌋ ∧
      round ((resolution : ℚ) * pct / 100) - 1 ≤ update_bake_margin resolution pct ∧
      update_bake_margin resolution pct ≤ round ((resolution : ℚ) * pct / 100) ∧
      0 ≤ update_bake_margin resolution pct ∧
      update_bake_margin resolution pct ≤ (resolution : ℤ) := by
  have hq : (0 : ℚ) ≤ (resolution : ℚ) * (pct / 100) := by positivity
  have heq : update_bake_margin resolution pct = ⌊(resolution : ℚ) * pct / 100⌋ := by
    rw [update_bake_margin, pyInt, if_pos hq, mul_div_assoc]
  refine ⟨heq, ?_, ?_, ?_, ?_⟩
  · rw [heq, round_eq]
    have : ⌊(resolution : ℚ) * pct / 100 + 1/2⌋ ≤ ⌊(resolution : ℚ) * pct / 100 + 1⌋ := by
      apply Int.floor_le_floor; linarith
    have h1 : ⌊(resolution : ℚ) * pct / 100 + 1⌋ = ⌊(resolution : ℚ) * pct / 100⌋ + 1 := by
      exact_mod_cast Int.floor_add_one ((resolution : ℚ) * pct / 100)
    omega
  · rw [heq, round_eq]
    apply Int.floor_le_floor; linarith
  · rw [heq]
    apply Int.floor_nonneg.mpr
    rw [← mul_div_assoc] at hq
    exact hq
  · rw [heq]
    calc ⌊(resolution : ℚ) * pct / 100⌋ ≤ ⌊(resolution : ℚ)⌋ := by
          apply Int.floor_le_floor
          rw [div_le_iff (by norm_num)]
          nlinarith [Nat.cast_nonneg (α := ℚ) resolution]
      _ = (resolution : ℤ) := Int.floor_natCast resolution

/-- C8 (witness for `bake_margin_is_floor`) at resolution 1024, pct 10. -/
theorem bake_margin_is_floor_witness :
    (64 ≤ 1024 ∧ 1024 ≤ 4096 ∧ (0 : ℚ) ≤ 10 ∧ (10 : ℚ) ≤ 100) ∧
      update_bake_margin 1024 10 = ⌊(1024 : ℚ) * 10 / 100⌋ := by
  refine ⟨⟨by norm_num, by norm_num, by norm_num, by norm_num⟩, ?_⟩
  exact (bake_margin_is_floor 1024 10 (by norm_num) (by norm_num)
    (by norm_num) (by norm_num)).1

/-- C9: supplying any non-empty string (including "False" and "0") to the
six `type=bool` CLI flags parses as `True`; only the empty string parses as
`False`, so these flags cannot be disabled by passing "False". -/
theorem cli_bool_flags_nonempty_true (i : CLIFlagInputs) (s : String)
    (h : s ≠ "") :
    parse_arguments
      { usenormal := some s, useao := some s, usecurvature := some s,
        useposition := some s, useworldspacenormal := some s,
        usemayaorientation := some s } =
      ⟨true, true, true, true, true, true⟩ ∧
    parse_arguments
      { usenormal := some "", useao := some "", usecurvature := some "",
        useposition := some "", useworldspacenormal := some "",
        usemayaorientation := some "" } =
      ⟨false, false, false, false, false, false⟩ ∧
    (parse_arguments { i with usenormal := some s }).usenormal = true := by
  have hb : pyBoolOfString s = true := by
    rw [pyBoolOfString]
    simp [h]
  refine ⟨?_, ?_, ?_⟩
  · simp [parse_arguments, parseBoolFlag, hb]
  · rfl
  · simp [parse_arguments, parseBoolFlag, hb]

/-- C7: for contrast `c` in [0,1] the curvature graph remaps the pointiness
range `[0.5 - ((1-c)/2 + 0.001), 0.5 + ((1-c)/2 + 0.001)]` linearly onto
[0,1], clamping outside; the window has width `(1-c) + 0.002` centered at
0.5, so contrast 0 gives the window `[-0.001, 1.001]` covering the unit
domain, and contrast 1 collapses it to width `0.002` around 0.5. -/
theorem curvature_remap_spec (c : ℚ) (hc0 : 0 ≤ c) (hc1 : c ≤ 1) :
    (∀ v, curvatureFromMin c ≤ v → v ≤ curvatureFromMax c →
      curvatureRemap c v =
        (v - curvatureFromMin c) / (curvatureFromMax c - curvatureFromMin c)) ∧
    (∀ v, v ≤ curvatureFromMin c → curvatureRemap c v = 0) ∧
    (∀ v, curvatureFromMax c ≤ v → curvatureRemap c v = 1) ∧
    curvatureFromMax c - curvatureFromMin c = (1 - c) + 1/500 ∧
    (curvatureFromMin c + curvatureFromMax c) / 2 = 1/2 ∧
    (c = 0 → curvatureFromMin c = -(1/1000) ∧ curvatureFromMax c = 1 + 1/1000) ∧
    (c = 1 → curvatureFromMin c = 1/2 - 1/1000 ∧
      curvatureFromMax c = 1/2 + 1/1000) := by
  have hw : (0 : ℚ) < curvatureFromMax c - curvatureFromMin c := by
    rw [curvatureFromMin, curvatureFromMax]; linarith
  refine ⟨?_, ?_, ?_, ?_, ?_, ?_, ?_⟩
  · intro v hv1 hv2
    rw [curvatureRemap, mapRangeLinearClamped]
    have ht0 : 0 ≤ (v - curvatureFromMin c) / (curvatureFromMax c - curvatureFromMin c) :=
      div_nonneg (by linarith) hw.le
    have ht1 : (v - curvatureFromMin c) / (curvatureFromMax c - curvatureFromMin c) ≤ 1 :=
      (div_le_one hw).mpr (by linarith)
    rw [max_eq_left ht0, min_eq_left ht1]
  · intro v hv
    rw [curvatureRemap, mapRangeLinearClamped]
    have ht : (v - curvatureFromMin c) / (curvatureFromMax c - curvatureFromMin c) ≤ 0 :=
      div_nonpos_iff.mpr (Or.inr ⟨by linarith, hw.le⟩)
    rw [max_eq_right ht, min_eq_left (by norm_num : (0:ℚ) ≤ 1)]
  · intro v hv
    rw [curvatureRemap, mapRangeLinearClamped]
    have ht : 1 ≤ (v - curvatureFromMin c) / (curvatureFromMax c - curvatureFromMin c) :=
      (one_le_div hw).mpr (by linarith)
    rw [max_eq_left (by linarith), min_eq_right ht]
  · rw [curvatureFromMin, curvatureFromMax]; ring
  · rw [curvatureFromMin, curvatureFromMax]; ring
  · intro hc; subst hc
    exact ⟨by norm_num [curvatureFromMin], by norm_num [curvatureFromMax]⟩
  · intro hc; subst hc
    exact ⟨by norm_num [curvatureFromMin], by norm_num [curvatureFromMax]⟩

/-- C7 (witness for `curvature_remap_spec`) at contrast 1/2 and input 1/2:
the window center maps to 1/2 and the window width is `0.502`. -/
theorem curvature_remap_spec_witness :
    ((0 : ℚ) ≤ 1/2 ∧ (1/2 : ℚ) ≤ 1) ∧
      curvatureRemap (1/2) (1/2) = (1/2) ∧
      curvatureFromMax (1/2) - curvatureFromMin (1/2) = 251/500 := by
  have h := curvature_remap_spec (1/2) (by norm_num) (by norm_num)
  refine ⟨⟨by norm_num, by norm_num⟩, ?_, ?_⟩
  · have hmid := h.1 (1/2)
      (by rw [curvatureFromMin]; norm_num)
      (by rw [curvatureFromMax]; norm_num)
    rw [hmid]
    rw [curvatureFromMin, curvatureFromMax]
    norm_num
  · have := h.2.2.2.1
    rw [this]; norm_num

/-- C6 (counterexample): in automatic output mode with the configurable
`naming_separator` set to "-", target "Prop01" and map type Normal resolve
to ".../Prop01-normal.png", not the claimed ".../Prop01_normal.png": the
name separator is not fixed to "_" in automatic mode. -/
theorem auto_output_uses_configured_separator :
    CreateMapOutput "/project"
      { automatic_output_path := true, single_object := true,
        targetName := "Prop01", sourceName := none, use_custom_name := false,
        custom_name := "custom_name", naming_separator := "-",
        mapname_separator := "_", naming_uppercase := false,
        naming_pascalcase := false, use_custom_path := false, bake_path := "",
        use_object_folder := true, use_subfolder := true,
        subfolder_name := "baked_maps" } .NORMAL
      = "/project/Resources/Prop01/baked_maps/Prop01-normal.png" ∧
    "/project/Resources/Prop01/baked_maps/Prop01-normal.png" ≠
      "/project/Resources/Prop01/baked_maps/Prop01_normal.png" := by
  constructor
  · rfl
  · decide

theorem strEndsWithSlash_append (a b : String)
    (h : strEndsWithSlash b = true) : strEndsWithSlash (a ++ b) = true := by
  unfold strEndsWithSlash at h ⊢
  rw [String.data_append, List.reverse_append]
  cases hb : b.data.reverse with
  | nil => rw [hb] at h; exact absurd h (by decide)
  | cons c cs =>
      rw [hb] at h
      rw [List.cons_append]
      simpa using h

theorem osPathJoin_slash (a b : String) (h : strEndsWithSlash a = true) :
    osPathJoin a b = a ++ b := by
  have hne : (a == "") = false := by
    cases heq : a == ""
    · rfl
    · exfalso
      have ha : a = "" := eq_of_beq heq
      rw [ha] at h
      exact absurd h (by decide)
  rw [osPathJoin]
  simp [hne, h]

/-- C6 (amended): for every configuration in automatic output mode, the
resolved output file is the directory `<project>/Resources/<stem>/baked_maps/`
concatenated with stem + the configured `naming_separator` (default "_") +
the lower-cased map-type label + ".png", where the stem is the resolved
object-name stem (the target name, or the stripped common leading substring
when a source takes part); only the within-label separator is fixed to "_"
in automatic mode.  With the default separator, target "Prop01" and map
type Normal resolve to the claimed
`<project>/Resources/Prop01/baked_maps/Prop01_normal.png`. -/
theorem auto_output_path_shape (projectRoot : String) (cfg : NamingCfg)
    (hauto : cfg.automatic_output_path = true) (bt : BakeTypeKey) :
    CreateMapOutput projectRoot cfg bt
      = (projectRoot ++ "/Resources/" ++ resolvedStem cfg ++ "/baked_maps/")
        ++ (resolvedStem cfg ++ cfg.naming_separator
            ++ (strLower (mapLabel "_" bt) ++ ".png")) ∧
    CreateMapOutput "/project"
      { automatic_output_path := true, single_object := true,
        targetName := "Prop01", sourceName := none, use_custom_name := false,
        custom_name := "custom_name", naming_separator := "_",
        mapname_separator := "_", naming_uppercase := false,
        naming_pascalcase := false, use_custom_path := false, bake_path := "",
        use_object_folder := true, use_subfolder := true,
        subfolder_name := "baked_maps" } .NORMAL
      = "/project/Resources/Prop01/baked_maps/Prop01_normal.png" := by
  constructor
  · have hslash : strEndsWithSlash
        (projectRoot ++ "/Resources/" ++ resolvedStem cfg ++ "/baked_maps/")
          = true :=
      strEndsWithSlash_append _ _ (by decide)
    simp only [CreateMapOutput, hauto, if_true]
    rw [osPathJoin_slash _ _ hslash]
    simp [String.append_assoc]
  · rfl

/-- C6 (witness for `auto_output_path_shape`) at a source-to-target
configuration: source "Rock_High" and target "Rock_Low" give the
common-prefix stem "Rock", and the Normal map resolves to
`/project/Resources/Rock/baked_maps/Rock_normal.png`. -/
theorem auto_output_path_shape_witness :
    (({ automatic_output_path := true, single_object := false,
        targetName := "Rock_Low", sourceName := some "Rock_High",
        use_custom_name := false, custom_name := "custom_name",
        naming_separator := "_", mapname_separator := "_",
        naming_uppercase := false, naming_pascalcase := false,
        use_custom_path := false, bake_path := "", use_object_folder := true,
        use_subfolder := true,
        subfolder_name := "baked_maps" } : NamingCfg).automatic_output_path
      = true) ∧
    CreateMapOutput "/project"
      { automatic_output_path := true, single_object := false,
        targetName := "Rock_Low", sourceName := some "Rock_High",
        use_custom_name := false, custom_name := "custom_name",
        naming_separator := "_", mapname_separator := "_",
        naming_uppercase := false, naming_pascalcase := false,
        use_custom_path := false, bake_path := "", use_object_folder := true,
        use_subfolder := true, subfolder_name := "baked_maps" } .NORMAL
      = "/project/Resources/Rock/baked_maps/Rock_normal.png" := by
  refine ⟨rfl, ?_⟩
  have h := (auto_output_path_shape "/project"
    { automatic_output_path := true, single_object := false,
      targetName := "Rock_Low", sourceName := some "Rock_High",
      use_custom_name := false, custom_name := "custom_name",
      naming_separator := "_", mapname_separator := "_",
      naming_uppercase := false, naming_pascalcase := false,
      use_custom_path := false, bake_path := "", use_object_folder := true,
      use_subfolder := true, subfolder_name := "baked_maps" } rfl .NORMAL).1
  rw [h]
  rfl

/-- C9 (witness): the string "False" is non-empty and parses every flag,
including `--usemayaorientation`, as `True`. -/
theorem cli_bool_flags_nonempty_true_witness :
    "False" ≠ "" ∧
      parse_arguments
        { usenormal := some "False", useao := some "False",
          usecurvature := some "False", useposition := some "False",
          useworldspacenormal := some "False",
          usemayaorientation := some "False" } =
        ⟨true, true, true, true, true, true⟩ := by
  refine ⟨by decide, ?_⟩
  exact (cli_bool_flags_nonempty_true
    ⟨none, none, none, none, none, none⟩ "False" (by decide)).1

/-! ## Theorems for claims C3, C4 (axis remapping) -/

/-- C4: the axis-selection conditional is a pure function of the
`(forward_axis, up_axis)` pair, so identical inputs give identical
selections; exactly the 12 pairs naming the same physical axis (same or
opposite sign) are flagged with the degenerate-axes warning, and the
remaining 24 pairs are not flagged. -/
theorem axis_remap_deterministic_and_degenerate_count :
    (∀ f u : AxisDir, axisSelect f u = axisSelect f u) ∧
    (∀ f u : AxisDir, (axisSelect f u).warned = (f.phys == u.phys)) ∧
    (Finset.univ.filter
      (fun q : AxisDir × AxisDir => (axisSelect q.1 q.2).warned = true)).card = 12 ∧
    (Finset.univ.filter
      (fun q : AxisDir × AxisDir => (axisSelect q.1 q.2).warned = false)).card = 24 := by
  refine ⟨fun f u => rfl, by decide, by decide, by decide⟩

/-- C3 (evaluation at the failing input): line 1315/1568 links the Z
channel into `math_node_y.inputs[1]` instead of `math_node_z.inputs[1]`,
replacing the Y link.  Consequently for the valid pair forward=+Y, up=−Z,
the Up channel is fed from `math_node_z`, whose subtrahend input was never
linked, and evaluates to the constant `1 − 0.5 = 0.5` instead of `1 − Z`
(for a sample with Z = 0, the claim expects 1); and for the valid pair
forward=−Y, up=+X, the Forward channel evaluates to `1 − Z` instead of
`1 − Y` (for a sample with Y = 1, Z = 0, the claim expects 0 but the code
yields 1). -/
theorem neg_axis_subtract_miswired :
    builtMathLinks.mathYIn = some Chan.Z ∧
    builtMathLinks.mathZIn = none ∧
    (axisSelect .POS_Y .NEG_Z).up = NodeOut.mathZ ∧
    (axisSelect .POS_Y .NEG_Z).warned = false ∧
    nodeOutVal builtMathLinks (fun _ => 0) NodeOut.mathZ = 1/2 ∧
    ¬ nodeOutVal builtMathLinks (fun _ => 0) NodeOut.mathZ = 1 - (0 : ℚ) ∧
    (axisSelect .NEG_Y .POS_X).forward = NodeOut.mathY ∧
    (axisSelect .NEG_Y .POS_X).warned = false ∧
    nodeOutVal builtMathLinks
      (fun c => if c = Chan.Y then 1 else 0) NodeOut.mathY = 1 ∧
    ¬ nodeOutVal builtMathLinks
      (fun c => if c = Chan.Y then 1 else 0) NodeOut.mathY = 1 - (1 : ℚ) := by
  refine ⟨rfl, rfl, rfl, rfl, ?_, ?_, rfl, rfl, ?_, ?_⟩
  · show (1 : ℚ) - 1/2 = 1/2
    norm_num
  · show ¬ (1 : ℚ) - 1/2 = 1 - 0
    norm_num
  · show (1 : ℚ) - (if Chan.Z = Chan.Y then (1 : ℚ) else 0) = 1
    rw [if_neg (by decide)]
    norm_num
  · show ¬ (1 : ℚ) - (if Chan.Z = Chan.Y then (1 : ℚ) else 0) = 1 - 1
    rw [if_neg (by decide)]
    norm_num

/-! ## Helper lemmas for the bake-job runner -/

theorem jobEvents_ok (mt : MapType) (dup : Bool) :
    (jobEvents mt dup false).2 = true := by
  cases mt <;> rfl

theorem jobEvents_enter_restore (mt : MapType) (dup : Bool) (m : MapType) :
    countEv (isEnterOf m) (jobEvents mt dup false).1
      = countEv (isRestoreOf m) (jobEvents mt dup false).1 := by
  cases mt <;>
    simp [jobEvents, countEv, isEnterOf, isRestoreOf, List.countP_cons]

theorem jobEvents_normalize_revert (mt : MapType) (dup : Bool) :
    countEv isNormalizeEv (jobEvents mt dup false).1
      = countEv isRevertEv (jobEvents mt dup false).1 := by
  cases mt <;>
    simp [jobEvents, countEv, isNormalizeEv, isRevertEv, List.countP_cons]

theorem jobEvents_no_dup_events (mt : MapType) (dup : Bool) :
    countEv isDupCreate (jobEvents mt dup false).1 = 0 ∧
    countEv isDupDestroy (jobEvents mt dup false).1 = 0 := by
  cases mt <;>
    simp [jobEvents, countEv, isDupCreate, isDupDestroy, List.countP_cons]

theorem countEv_append (p : Ev → Bool) (a b : List Ev) :
    countEv p (a ++ b) = countEv p a + countEv p b :=
  List.countP_append p a b

theorem countEv_pre (p : Ev → Bool) (c : Bool) (e : Ev) :
    countEv p (if c then [e] else []) = if c && p e then 1 else 0 := by
  cases c <;> cases he : p e <;> simp [countEv, List.countP_cons, he]

theorem countEv_pre2 (p : Ev → Bool) (c : Bool) (e : Ev) :
    countEv p (if c then [] else [e]) = if !c && p e then 1 else 0 := by
  cases c <;> cases he : p e <;> simp [countEv, List.countP_cons, he]

theorem countEv_nil (p : Ev → Bool) : countEv p [] = 0 := rfl

theorem countEv_singleton (p : Ev → Bool) (e : Ev) :
    countEv p [e] = if p e then 1 else 0 := by
  cases he : p e <;> simp [countEv, List.countP_cons, he]

theorem runJobs_cons_noFail (mt : MapType) (rest : List MapType) (dup : Bool) :
    runJobs (fun _ => false) (mt :: rest) dup
      = ((if isLit mt && dup then [Ev.dupDestroy] else []) ++
         (jobEvents mt (if isLit mt then false else dup) false).1 ++
         (runJobs (fun _ => false) rest (if isLit mt then false else dup)).1,
         (runJobs (fun _ => false) rest (if isLit mt then false else dup)).2) := by
  simp only [runJobs, jobEvents_ok, if_true]

theorem runJobs_noFail (maps : List MapType) : ∀ dup : Bool,
    (runJobs (fun _ => false) maps dup).2 = some (dup && !maps.any isLit) ∧
    (∀ m, countEv (isEnterOf m) (runJobs (fun _ => false) maps dup).1
        = countEv (isRestoreOf m) (runJobs (fun _ => false) maps dup).1) ∧
    countEv isNormalizeEv (runJobs (fun _ => false) maps dup).1
      = countEv isRevertEv (runJobs (fun _ => false) maps dup).1 ∧
    countEv isDupCreate (runJobs (fun _ => false) maps dup).1 = 0 ∧
    countEv isDupDestroy (runJobs (fun _ => false) maps dup).1
      = (if dup && maps.any isLit then 1 else 0) := by
  induction maps with
  | nil =>
      intro dup
      refine ⟨by simp [runJobs], fun m => rfl, rfl, rfl, by simp [runJobs, countEv]⟩
  | cons mt rest ih =>
      intro dup
      obtain ⟨ih1, ih2, ih3, ih4, ih5⟩ := ih (if isLit mt then false else dup)
      rw [runJobs_cons_noFail]
      dsimp only
      simp only [countEv_append]
      refine ⟨?_, ?_, ?_, ?_, ?_⟩
      · rw [ih1]
        cases hl : isLit mt <;> cases dup <;> simp [hl, List.any_cons]
      · intro m
        rw [jobEvents_enter_restore mt _ m, ih2 m, countEv_pre, countEv_pre]
        simp [isEnterOf, isRestoreOf]
      · rw [jobEvents_normalize_revert, ih3, countEv_pre, countEv_pre]
        simp [isNormalizeEv, isRevertEv]
      · rw [(jobEvents_no_dup_events mt _).1, ih4, countEv_pre]
        simp [isDupCreate]
      · rw [(jobEvents_no_dup_events mt _).2, ih5, countEv_pre]
        cases hl : isLit mt <;> cases dup <;>
          simp [hl, List.any_cons, isDupDestroy]

theorem executeRun_noFail_eq (maps : List MapType) :
    executeRun maps true (fun _ => false)
      = ((if maps.all isLit then ([] : List Ev) else [Ev.dupCreate]) ++
         (runJobs (fun _ => false) maps (!maps.all isLit)).1 ++
         (if !maps.all isLit && !maps.any isLit then [Ev.dupDestroy] else []),
         Outcome.finished) := by
  have hsnd := (runJobs_noFail maps (!maps.all isLit)).1
  rw [executeRun]
  simp only [Bool.not_true, Bool.false_eq_true, if_false, hsnd]

/-! ## Theorems for claims C1, C2 (runner cleanup and duplication) -/

/-- C1 (counterexample): with only Normal enabled and a failing renderer
bake call, the operator raises with the job entered but never restored and
the duplicate pair leaked; with no resolvable active object it returns
CANCELLED leaving the freshly created duplicate pair behind; and with only
Position enabled and a failing bake the normalized transform is never
reverted. -/
theorem runner_cleanup_skipped_on_failure :
    (executeRun [.NORMAL] true (fun _ => true)).2 = .excRaised ∧
    countEv (isEnterOf .NORMAL) (executeRun [.NORMAL] true (fun _ => true)).1 = 1 ∧
    countEv (isRestoreOf .NORMAL) (executeRun [.NORMAL] true (fun _ => true)).1 = 0 ∧
    countEv isDupCreate (executeRun [.NORMAL] true (fun _ => true)).1 = 1 ∧
    countEv isDupDestroy (executeRun [.NORMAL] true (fun _ => true)).1 = 0 ∧
    (executeRun [.NORMAL] false (fun _ => false)).2 = .cancelled ∧
    countEv isDupCreate (executeRun [.NORMAL] false (fun _ => false)).1 = 1 ∧
    countEv isDupDestroy (executeRun [.NORMAL] false (fun _ => false)).1 = 0 ∧
    countEv isNormalizeEv (executeRun [.POSITION] true (fun _ => true)).1 = 1 ∧
    countEv isRevertEv (executeRun [.POSITION] true (fun _ => true)).1 = 0 := by
  decide

/-- C1 (amended): on every run in which an active object resolves and no
renderer bake call fails, each entered job runs exactly one restore step,
the Position normalize and revert are matched, duplicate creations are
matched by destructions, and the operator finishes. -/
theorem runner_restore_invariant_on_success (maps : List MapType) :
    (∀ m, countEv (isEnterOf m) (executeRun maps true (fun _ => false)).1
        = countEv (isRestoreOf m) (executeRun maps true (fun _ => false)).1) ∧
    countEv isNormalizeEv (executeRun maps true (fun _ => false)).1
      = countEv isRevertEv (executeRun maps true (fun _ => false)).1 ∧
    countEv isDupCreate (executeRun maps true (fun _ => false)).1
      = countEv isDupDestroy (executeRun maps true (fun _ => false)).1 ∧
    (executeRun maps true (fun _ => false)).2 = .finished := by
  rw [executeRun_noFail_eq]
  dsimp only
  simp only [countEv_append]
  refine ⟨?_, ?_, ?_, trivial⟩
  · intro m
    cases hall : maps.all isLit <;> cases hany : maps.any isLit <;>
      simp [hall, hany, countEv_nil, countEv_singleton, isEnterOf, isRestoreOf,
        (runJobs_noFail maps true).2.1 m, (runJobs_noFail maps false).2.1 m]
  · cases hall : maps.all isLit <;> cases hany : maps.any isLit <;>
      simp [hall, hany, countEv_nil, countEv_singleton, isNormalizeEv, isRevertEv,
        (runJobs_noFail maps true).2.2.1, (runJobs_noFail maps false).2.2.1]
  · cases hall : maps.all isLit <;> cases hany : maps.any isLit <;>
      simp [hall, hany, countEv_nil, countEv_singleton, isDupCreate, isDupDestroy,
        (runJobs_noFail maps true).2.2.2.1, (runJobs_noFail maps false).2.2.2.1,
        (runJobs_noFail maps true).2.2.2.2, (runJobs_noFail maps false).2.2.2.2]

/-! ## Helper lemmas relating the lit/unlit phase order -/

theorem all_lit_not_any_unlit (l : List MapType) :
    l.all isLit = !l.any (fun mt => !isLit mt) := by
  induction l with
  | nil => rfl
  | cons mt rest ih => simp [List.all_cons, List.any_cons, ih]

theorem litSuffix_of_all (l : List MapType) (h : l.all isLit = true) :
    litSuffix l = true := by
  cases l with
  | nil => rfl
  | cons mt rest =>
      simp only [List.all_cons, Bool.and_eq_true] at h
      simp [litSuffix, h.1, h.2]

theorem all_filter_of_all (p q : MapType → Bool) (l : List MapType)
    (h : l.all q = true) : (l.filter p).all q = true := by
  simp only [List.all_eq_true] at h ⊢
  intro a ha
  exact h a (List.mem_filter.mp ha).1

theorem litSuffix_filter (p : MapType → Bool) (l : List MapType)
    (h : litSuffix l = true) : litSuffix (l.filter p) = true := by
  induction l with
  | nil => rfl
  | cons mt rest ih =>
      by_cases hl : isLit mt = true
      · simp only [litSuffix, if_pos hl] at h
        by_cases hp : p mt = true
        · rw [List.filter_cons_of_pos hp]
          simp only [litSuffix, if_pos hl]
          exact all_filter_of_all p isLit rest h
        · rw [List.filter_cons_of_neg hp]
          exact litSuffix_of_all _ (all_filter_of_all p isLit rest h)
      · simp only [litSuffix, if_neg hl] at h
        by_cases hp : p mt = true
        · rw [List.filter_cons_of_pos hp]
          simp only [litSuffix, if_neg hl]
          exact ih h
        · rw [List.filter_cons_of_neg hp]
          exact ih h

theorem jobEvents_enter_mem (mt : MapType) (dup : Bool) (m : MapType) (d : Bool)
    (hmem : Ev.enter m d ∈ (jobEvents mt dup false).1) : m = mt ∧ d = dup := by
  cases mt <;> simpa [jobEvents] using hmem

theorem runJobs_enter_usingDup (maps : List MapType) : ∀ dup : Bool,
    litSuffix maps = true →
    (maps.any (fun mt => !isLit mt) = true → dup = true) →
    ∀ m d, Ev.enter m d ∈ (runJobs (fun _ => false) maps dup).1 →
      d = !isLit m := by
  induction maps with
  | nil =>
      intro dup _ _ m d hmem
      simp [runJobs] at hmem
  | cons mt rest ih =>
      intro dup hls hdup m d hmem
      rw [runJobs_cons_noFail] at hmem
      dsimp only at hmem
      rw [List.mem_append, List.mem_append] at hmem
      rcases hmem with (hpre | hje) | hrec
      · cases hc : (isLit mt && dup) <;> simp [hc] at hpre
      · obtain ⟨hm, hd⟩ := jobEvents_enter_mem mt _ m d hje
        subst hm
        cases hl : isLit m
        · have hdt : dup = true := hdup (by simp [List.any_cons, hl])
          rw [hd, if_neg (by simp [hl]), hdt]
          rfl
        · rw [hd, if_pos hl]
          rfl
      · cases hl : isLit mt
        · -- current job unlit: the duplicate flag is unchanged
          simp only [hl, Bool.false_eq_true, if_false] at hrec
          simp only [litSuffix, hl, Bool.false_eq_true, if_false] at hls
          refine ih dup hls ?_ m d hrec
          intro hr
          exact hdup (by simp [List.any_cons, hr])
        · -- current job lit: every later job is lit
          simp only [hl, if_true] at hrec
          simp only [litSuffix, hl, if_true] at hls
          refine ih false (litSuffix_of_all rest hls) ?_ m d hrec
          intro hr
          rw [all_lit_not_any_unlit, hr] at hls
          simp at hls

/-- C2 (counterexample): a run enabling only the lit map type Combined
never creates a duplicate pair, while a run enabling only the unlit map
type Normal creates one and runs the Normal job on the duplicates; with
Curvature (unlit) and Combined (lit) enabled together, the unlit job uses
the duplicates and the lit job uses the real objects, the opposite of the
claimed assignment. -/
theorem duplication_inverted_counterexample :
    countEv isDupCreate (executeRun [.COMBINED] true (fun _ => false)).1 = 0 ∧
    (executeRun [.COMBINED] true (fun _ => false)).2 = .finished ∧
    countEv isDupCreate (executeRun [.NORMAL] true (fun _ => false)).1 = 1 ∧
    Ev.enter .NORMAL true ∈ (executeRun [.NORMAL] true (fun _ => false)).1 ∧
    Ev.enter .CURVATURE true
      ∈ (executeRun [.CURVATURE, .COMBINED] true (fun _ => false)).1 ∧
    Ev.enter .COMBINED false
      ∈ (executeRun [.CURVATURE, .COMBINED] true (fun _ => false)).1 ∧
    countEv isDupDestroy
      (executeRun [.CURVATURE, .COMBINED] true (fun _ => false)).1 = 1 := by
  decide

/-- C2 (amended): for every choice of enabled map types (a successful run
over the filtered `map_types` order), exactly one duplicate pair is
created, at run start, iff at least one unlit map type is enabled — not
when a lit one is; every unlit job runs on the duplicates (with the
originals hidden and the duplicates' materials cleared), every lit job
runs on the real objects, and the duplicates are destroyed exactly once:
at the first lit job, or at run end when no lit job is enabled. -/
theorem lit_unlit_duplication_phases (p : MapType → Bool) :
    countEv isDupCreate (executeRun (mapOrder.filter p) true (fun _ => false)).1
      = (if (mapOrder.filter p).any (fun mt => !isLit mt) then 1 else 0) ∧
    countEv isDupDestroy (executeRun (mapOrder.filter p) true (fun _ => false)).1
      = countEv isDupCreate (executeRun (mapOrder.filter p) true (fun _ => false)).1 ∧
    (∀ m d, Ev.enter m d ∈ (executeRun (mapOrder.filter p) true (fun _ => false)).1 →
      d = !isLit m) ∧
    (executeRun (mapOrder.filter p) true (fun _ => false)).2 = .finished := by
  have hls : litSuffix (mapOrder.filter p) = true :=
    litSuffix_filter p mapOrder rfl
  have hau : (mapOrder.filter p).any (fun mt => !isLit mt)
      = !(mapOrder.filter p).all isLit := by
    rw [all_lit_not_any_unlit, Bool.not_not]
  rw [executeRun_noFail_eq]
  dsimp only
  refine ⟨?_, ?_, ?_, rfl⟩
  · simp only [countEv_append]
    cases hall : (mapOrder.filter p).all isLit <;>
      cases hany : (mapOrder.filter p).any isLit <;>
      simp [hall, hany, hau, countEv_nil, countEv_singleton, isDupCreate,
        (runJobs_noFail (mapOrder.filter p) true).2.2.2.1,
        (runJobs_noFail (mapOrder.filter p) false).2.2.2.1]
  · simp only [countEv_append]
    cases hall : (mapOrder.filter p).all isLit <;>
      cases hany : (mapOrder.filter p).any isLit <;>
      simp [hall, hany, countEv_nil, countEv_singleton, isDupCreate, isDupDestroy,
        (runJobs_noFail (mapOrder.filter p) true).2.2.2.1,
        (runJobs_noFail (mapOrder.filter p) false).2.2.2.1,
        (runJobs_noFail (mapOrder.filter p) true).2.2.2.2,
        (runJobs_noFail (mapOrder.filter p) false).2.2.2.2]
  · intro m d hmem
    rw [List.mem_append, List.mem_append] at hmem
    rcases hmem with (hpre | hrun) | hpost
    · cases hall : (mapOrder.filter p).all isLit <;> simp [hall] at hpre
    · exact runJobs_enter_usingDup (mapOrder.filter p) _ hls
        (fun hr => by rw [hau] at hr; exact hr) m d hrun
    · cases hc : (!(mapOrder.filter p).all isLit && !(mapOrder.filter p).any isLit) <;>
        simp [hc] at hpost

/-- C2 (witness for `lit_unlit_duplication_phases`): with Curvature and
Combined enabled, the Curvature job's enter event is in the trace, and the
theorem yields that it runs on the duplicates. -/
theorem lit_unlit_duplication_phases_witness :
    Ev.enter .CURVATURE true
      ∈ (executeRun
          (mapOrder.filter (fun mt => mt == .CURVATURE || mt == .COMBINED))
          true (fun _ => false)).1 ∧
    true = !isLit .CURVATURE :=
  ⟨by decide,
   (lit_unlit_duplication_phases
      (fun mt => mt == .CURVATURE || mt == .COMBINED)).2.2.1 .CURVATURE true
     (by decide)⟩

/-! ## Theorems for claim C10 (curvature neutral-gray initialization) -/

theorem take_flatten_replicate {α : Type} (blk : List α) :
    ∀ (k n : Nat), k < n →
      ((List.replicate n blk).flatten.drop (blk.length * k)).take blk.length
        = blk := by
  intro k
  induction k with
  | zero =>
      intro n hn
      cases n with
      | zero => exact absurd hn (Nat.lt_irrefl 0)
      | succ m =>
          rw [List.replicate_succ, List.flatten_cons, Nat.mul_zero,
            List.drop_zero, List.take_left]
  | succ k ih =>
      intro n hn
      cases n with
      | zero => exact absurd hn (Nat.not_lt_zero _)
      | succ m =>
          rw [List.replicate_succ, List.flatten_cons, Nat.mul_succ,
            Nat.add_comm (blk.length * k) blk.length, List.drop_append]
          exact ih m (Nat.lt_of_succ_lt_succ hn)

theorem curvatureInitPixels_length (res : Nat) :
    (curvatureInitPixels res).length = 4 * res ^ 2 := by
  rw [curvatureInitPixels, List.length_flatten, List.map_replicate]
  simp [List.sum_replicate, smul_eq_mul]
  ring

/-- C10: the flat RGBA pixel array written before the curvature bake holds
the quadruple (0.5, 0.5, 0.5, 1.0) for every pixel index; bake clearing is
disabled when the bake call runs and is re-enabled afterwards (the only
scene operation between the bake call and the re-enable is the image
save), leaving the flag `True` at the end of the job. -/
theorem curvature_gray_init_and_clear_flag (res k : Nat) (hk : k < res ^ 2) :
    (curvatureInitPixels res).length = 4 * res ^ 2 ∧
    ((curvatureInitPixels res).drop (4 * k)).take 4 = [1/2, 1/2, 1/2, 1] ∧
    useClearWhenBake curvatureJobOps none = some false ∧
    useClearFinal curvatureJobOps none = some true ∧
    curvatureJobOps[3]? = some SceneOp.bakeOp ∧
    curvatureJobOps[4]? = some SceneOp.saveImage ∧
    curvatureJobOps[5]? = some (SceneOp.setUseClear true) := by
  refine ⟨curvatureInitPixels_length res, ?_, rfl, rfl, rfl, rfl, rfl⟩
  have h := take_flatten_replicate ([1/2, 1/2, 1/2, 1] : List ℚ) k (res ^ 2) hk
  simpa [curvatureInitPixels] using h

/-- C10 (witness for `curvature_gray_init_and_clear_flag`) at resolution 2,
pixel index 3. -/
theorem curvature_gray_init_witness :
    3 < 2 ^ 2 ∧
      ((curvatureInitPixels 2).drop (4 * 3)).take 4 = [1/2, 1/2, 1/2, 1] :=
  ⟨by decide, (curvature_gray_init_and_clear_flag 2 3 (by decide)).2.1⟩

end XBake
